import Mathlib

/-!
Verification of the event date-validation core of `events/validation.py`.

The Python module validates event definitions: each non-fallback event carries an
inclusive `[start_date, end_date]` range of month/day dates pinned to a fixed
arbitrary leap year (2020), ranges may wrap past year-end, and the validator
checks that exactly one fallback event exists and that no calendar day is claimed
by two or more non-fallback events.

Dates are shallowly embedded as month/day pairs: every date the Python code
manipulates lives in `ARBITRARY_YEAR` (the generator re-normalizes the year after
every increment via `state.replace(year=ARBITRARY_YEAR)`), so the year component
carries no information and the successor function `Date.nextWrapped` encodes both
the `timedelta(days=1)` step and the year normalization (December 31 steps to
January 1 of the same reference year). Python exceptions are embedded as an
explicit error type `VError` distinguishing `Misconfiguration` from the
`RuntimeError` usage error, and fallible functions return `Except VError`.
-/

/-- The fixed reference year of `validation.py` (intentionally a leap year). -/
def ARBITRARY_YEAR : Nat := 2020

/-- Number of days of each month in the (leap) reference year 2020. -/
def daysInMonth : Nat → Nat
  | 1 => 31
  | 2 => 29
  | 3 => 31
  | 4 => 30
  | 5 => 31
  | 6 => 30
  | 7 => 31
  | 8 => 31
  | 9 => 30
  | 10 => 31
  | 11 => 30
  | 12 => 31
  | _ => 0

/-- A calendar date of the fixed reference year, as the month/day pair of a
Python `datetime.date` with `year = ARBITRARY_YEAR`. -/
structure Date where
  month : Nat
  day : Nat
deriving DecidableEq

/-- Well-formedness of a `Date`: exactly the month/day pairs that a Python
`datetime.date` of the leap reference year can hold. -/
def Date.validB (d : Date) : Bool :=
  decide (1 ≤ d.month) && decide (d.month ≤ 12) &&
    decide (1 ≤ d.day) && decide (d.day ≤ daysInMonth d.month)

/-- Propositional form of `Date.validB`. -/
def Date.valid (d : Date) : Prop := d.validB = true

instance (d : Date) : Decidable d.valid :=
  inferInstanceAs (Decidable (_ = true))

/-- One step of the loop body of `active_days`:
`state += timedelta(days=1)` followed by `state = state.replace(year=ARBITRARY_YEAR)`.
For a date of the reference year the only increment that leaves the year is
December 31 → January 1, which the `replace` call maps back to January 1 of the
reference year. -/
def Date.nextWrapped (d : Date) : Date :=
  if d.day < daysInMonth d.month then ⟨d.month, d.day + 1⟩
  else if d.month < 12 then ⟨d.month + 1, 1⟩
  else ⟨1, 1⟩

/-- Day-of-year offset of the first day of each month in the leap reference year. -/
def monthOffset : Nat → Nat
  | 1 => 0
  | 2 => 31
  | 3 => 60
  | 4 => 91
  | 5 => 121
  | 6 => 152
  | 7 => 182
  | 8 => 213
  | 9 => 244
  | 10 => 274
  | 11 => 305
  | 12 => 335
  | _ => 366

/-- Zero-based day-of-year ordinal of a date of the leap reference year. -/
def Date.toOrdinal (d : Date) : Nat := monthOffset d.month + (d.day - 1)

/-- Inverse of `Date.toOrdinal` on `0 ≤ n < 366`. -/
def Date.ofOrdinal (n : Nat) : Date :=
  if n < 31 then ⟨1, n + 1⟩
  else if n < 60 then ⟨2, n - 30⟩
  else if n < 91 then ⟨3, n - 59⟩
  else if n < 121 then ⟨4, n - 90⟩
  else if n < 152 then ⟨5, n - 120⟩
  else if n < 182 then ⟨6, n - 151⟩
  else if n < 213 then ⟨7, n - 181⟩
  else if n < 244 then ⟨8, n - 212⟩
  else if n < 274 then ⟨9, n - 243⟩
  else if n < 305 then ⟨10, n - 273⟩
  else if n < 335 then ⟨11, n - 304⟩
  else ⟨12, n - 334⟩

/-- English month name, as produced by `strftime("%B")`. -/
def monthName : Nat → String
  | 1 => "January"
  | 2 => "February"
  | 3 => "March"
  | 4 => "April"
  | 5 => "May"
  | 6 => "June"
  | 7 => "July"
  | 8 => "August"
  | 9 => "September"
  | 10 => "October"
  | 11 => "November"
  | 12 => "December"
  | _ => ""

/-- Zero-padded two-digit day, as produced by `strftime("%d")`. -/
def padTwo (n : Nat) : String :=
  if n < 10 then "0" ++ toString n else toString n

/-- `day.strftime("%B %d")` of `check_date_configuration`, e.g. "January 05". -/
def formatMonthDay (d : Date) : String :=
  monthName d.month ++ " " ++ padTwo d.day

/-- The two exception kinds the module can raise from the validation core:
`Misconfiguration` (a data problem) and `RuntimeError` (the usage error raised
by `active_days`). -/
inductive VError where
  | misconfiguration (msg : String)
  | runtimeError (msg : String)
deriving DecidableEq

/-- Runtime representation of a correctly defined event (`class Event(t.NamedTuple)`). -/
structure Event where
  name : String
  fallback : Bool
  start_date : Option Date
  end_date : Option Date
  description : String
deriving DecidableEq

/-- The loop of `active_days`, which starts at `state = event.start_date`,
yields `state`, stops after yielding `event.end_date`, and otherwise advances by
one (year-normalized) day. The Python loop has no counter; the `fuel` argument
only bounds the recursion, and 366 steps always suffice for valid dates (proved
below as fuel-independence). -/
def activeDaysFrom : Nat → Date → Date → List Date
  | 0, _, _ => []
  | fuel + 1, state, endDate =>
    state :: (if state = endDate then [] else activeDaysFrom fuel state.nextWrapped endDate)

/-- `active_days(event)`: all days in which `event` is active, or the
`RuntimeError` raised when the event lacks a start or end date. -/
def active_days (event : Event) : Except VError (List Date) :=
  match event.start_date, event.end_date with
  | some s, some en => .ok (activeDaysFrom 366 s en)
  | _, _ => .error (.runtimeError "Cannot generate days: event does not have start and date!")

/-- `schedule[day].append(event)` on the insertion-ordered day → events mapping
(`defaultdict(list)`; Python dicts preserve key insertion order). -/
def scheduleInsert : List (Date × List Event) → Date → Event → List (Date × List Event)
  | [], d, e => [(d, [e])]
  | p :: rest, d, e =>
    if p.1 = d then (p.1, p.2 ++ [e]) :: rest else p :: scheduleInsert rest d e

/-- The value stored under a day in the schedule (`[]` when the key is absent,
matching `defaultdict(list)` reads). Specification helper for the proofs. -/
def lookupDay : List (Date × List Event) → Date → List Event
  | [], _ => []
  | p :: rest, d => if p.1 = d then p.2 else lookupDay rest d

/-- The keys of the schedule, in insertion order. Specification helper. -/
def keysOf (sched : List (Date × List Event)) : List Date := sched.map Prod.fst

/-- The double loop of `find_collisions`:
`for event in events: for day in active_days(event): schedule[day].append(event)`.
A `RuntimeError` escaping `active_days` propagates. -/
def buildSchedule : List Event → List (Date × List Event) → Except VError (List (Date × List Event))
  | [], sched => .ok sched
  | event :: rest, sched =>
    match active_days event with
    | .error err => .error err
    | .ok days => buildSchedule rest (days.foldl (fun s day => scheduleInsert s day event) sched)

/-- `find_collisions(events)`: the day → colliding-events mapping, keeping only
days whose claimant list has length greater than 1 (in key insertion order, as
the Python dict comprehension does). -/
def find_collisions (events : List Event) : Except VError (List (Date × List Event)) :=
  match buildSchedule events [] with
  | .ok schedule => .ok (schedule.filter (fun p => decide (1 < p.2.length)))
  | .error err => .error err

/-- `check_date_configuration(events)`: fallback cardinality check followed by
the collision check, raising `Misconfiguration` with the exact report strings
of the Python code. The Python locals `fallback_events`, `non_fallback_events`
and `report_lines` are inlined at their use sites. -/
def check_date_configuration (events : List Event) : Except VError Unit :=
  if (events.filter (fun e => e.fallback)).isEmpty then
    .error (.misconfiguration "There is no fallback event")
  else if 1 < (events.filter (fun e => e.fallback)).length then
    .error (.misconfiguration ("There are multiple fallback events: " ++
      String.intercalate ", " ((events.filter (fun e => e.fallback)).map (fun e => e.name)) ++
      " (must be exactly 1)"))
  else
    match find_collisions (events.filter (fun e => !e.fallback)) with
    | .error err => .error err
    | .ok collisions =>
      if collisions.isEmpty then .ok ()
      else
        .error (.misconfiguration ("Event collision detected:\n" ++
          String.intercalate "\n" (collisions.map (fun p =>
            formatMonthDay p.1 ++ ": " ++
              String.intercalate ", " (p.2.map (fun e => e.name))))))

/-- A frontmatter value under the key "fallback": either a boolean or anything
else (only `isinstance(fallback, bool)` matters to the code). -/
inductive FMValue where
  | bool (b : Bool)
  | nonBool
deriving DecidableEq

/-- The parsed `meta.md` frontmatter attributes consumed by `make_event` after
the file-system and frontmatter-parsing glue (which is outside the core).
A date attribute is `none` when the key is absent; when present it carries the
result of `datetime.strptime(value + " 2020", "%B %d %Y")`, abstracted as
`some date` on success and `none` on a parse failure. -/
structure MetaAttrs where
  fallback : Option FMValue
  start_date : Option (Option Date)
  end_date : Option (Option Date)
deriving DecidableEq

/-- The validation core of `make_event`, from the point where `attrs` and
`description` have been parsed out of `meta.md` (the directory/file-existence
checks and the frontmatter parser are I/O glue outside the core). The branch
structure is that of the source: description checks, the `fallback` type check,
the early return for fallback events, the missing-date-attributes check (the
missing keys are listed with `start_date` first, fixing the iteration order of
the Python set difference), and the two date-parse checks. -/
def make_event (name : String) (attrs : MetaAttrs) (description : String) : Except VError Event :=
  if description.length = 0 then
    .error (.misconfiguration "No description in meta.md")
  else if 2048 < description.length then
    .error (.misconfiguration "Description too long, must be <= 2048")
  else
    match attrs.fallback.getD (.bool false) with
    | .nonBool => .error (.misconfiguration "Value under fallback key must be a boolean")
    | .bool true => .ok ⟨name, true, none, none, description⟩
    | .bool false =>
      match attrs.start_date, attrs.end_date with
      | none, none =>
        .error (.misconfiguration "Non-fallback event must have attributes: start_date, end_date")
      | none, some _ =>
        .error (.misconfiguration "Non-fallback event must have attributes: start_date")
      | some _, none =>
        .error (.misconfiguration "Non-fallback event must have attributes: end_date")
      | some parsedStart, some parsedEnd =>
        match parsedStart with
        | none => .error (.misconfiguration "Attribute start_date failed to parse")
        | some s =>
          match parsedEnd with
          | none => .error (.misconfiguration "Attribute end_date failed to parse")
          | some en => .ok ⟨name, false, some s, some en, description⟩

/-- Whether an event has both dates set and both valid; the shape of every
non-fallback event the Python loader can produce. -/
def Event.datesOk (e : Event) : Bool :=
  match e.start_date, e.end_date with
  | some s, some en => s.validB && en.validB
  | _, _ => false

/-- Whether `event` claims calendar day `d`, i.e. `d` occurs in its
`active_days` enumeration. Specification helper. -/
def claimsDay (event : Event) (d : Date) : Bool :=
  match active_days event with
  | .ok days => decide (d ∈ days)
  | .error _ => false

/-- The events of `events` claiming day `d`, in input (insertion) order.
Specification helper. -/
def claimants (events : List Event) (d : Date) : List Event :=
  events.filter (fun e => claimsDay e d)

/-- Number of days the loop of `active_days` runs through from `s` to `en`
(cyclically, endpoints inclusive). -/
def spanLen (s en : Date) : Nat := (en.toOrdinal + 366 - s.toOrdinal) % 366 + 1

/-- Calendar order on month/day dates: month first, then day. -/
def calendarLE (a b : Date) : Prop :=
  a.month < b.month ∨ (a.month = b.month ∧ a.day ≤ b.day)

instance : DecidableRel calendarLE := fun a b =>
  inferInstanceAs (Decidable (a.month < b.month ∨ (a.month = b.month ∧ a.day ≤ b.day)))

/-- The two fallback-cardinality failure messages of `check_date_configuration`. -/
def IsFallbackCardinalityMsg (m : String) : Prop :=
  m = "There is no fallback event" ∨
    ∃ ns, m = "There are multiple fallback events: " ++ ns ++ " (must be exactly 1)"

/-- Example event: active January 1 – January 10. -/
def evA : Event := ⟨"A", false, some ⟨1, 1⟩, some ⟨1, 10⟩, "a"⟩

/-- Example event: active January 5 – January 20. -/
def evB : Event := ⟨"B", false, some ⟨1, 5⟩, some ⟨1, 20⟩, "b"⟩

/-- Example fallback event. -/
def evFallback : Event := ⟨"fallback", true, none, none, "f"⟩

/-- Example event with a wrapping range December 30 – January 2. -/
def evW1 : Event := ⟨"W1", false, some ⟨12, 30⟩, some ⟨1, 2⟩, "w"⟩

/-- Second example event with the same wrapping range December 30 – January 2. -/
def evW2 : Event := ⟨"W2", false, some ⟨12, 30⟩, some ⟨1, 2⟩, "w"⟩

/-! ### Basic facts about the date/ordinal correspondence -/

set_option maxHeartbeats 2000000 in
set_option maxRecDepth 10000 in
theorem ordFacts : ∀ m, m < 13 → ∀ d, d < 32 →
    (Date.validB ⟨m, d⟩ = true →
      (Date.toOrdinal ⟨m, d⟩ < 366 ∧
       Date.ofOrdinal (Date.toOrdinal ⟨m, d⟩) = ⟨m, d⟩ ∧
       Date.validB (Date.nextWrapped ⟨m, d⟩) = true ∧
       Date.toOrdinal (Date.nextWrapped ⟨m, d⟩) = (Date.toOrdinal ⟨m, d⟩ + 1) % 366)) := by
  decide

set_option maxHeartbeats 2000000 in
set_option maxRecDepth 10000 in
theorem ofOrdinalFacts : ∀ n, n < 366 →
    (Date.validB (Date.ofOrdinal n) = true ∧ Date.toOrdinal (Date.ofOrdinal n) = n) := by
  decide

theorem daysInMonthLe : ∀ m, m < 13 → daysInMonth m ≤ 31 := by decide

theorem Date.valid_bounds (d : Date) (h : d.valid) : d.month < 13 ∧ d.day < 32 := by
  obtain ⟨m, dy⟩ := d
  unfold Date.valid Date.validB at h
  simp only [Bool.and_eq_true, decide_eq_true_eq] at h
  show m < 13 ∧ dy < 32
  have hm : m < 13 := by omega
  have := daysInMonthLe m hm
  exact ⟨hm, by omega⟩

theorem Date.ordFacts_of_valid (d : Date) (h : d.valid) :
    d.toOrdinal < 366 ∧ Date.ofOrdinal d.toOrdinal = d ∧
      d.nextWrapped.valid ∧ d.nextWrapped.toOrdinal = (d.toOrdinal + 1) % 366 := by
  obtain ⟨hm, hd⟩ := d.valid_bounds h
  obtain ⟨m, dy⟩ := d
  exact ordFacts m hm dy hd h

theorem Date.toOrdinal_lt (d : Date) (h : d.valid) : d.toOrdinal < 366 :=
  (d.ordFacts_of_valid h).1

theorem Date.ofOrdinal_toOrdinal (d : Date) (h : d.valid) : Date.ofOrdinal d.toOrdinal = d :=
  (d.ordFacts_of_valid h).2.1

theorem Date.nextWrapped_valid (d : Date) (h : d.valid) : d.nextWrapped.valid :=
  (d.ordFacts_of_valid h).2.2.1

theorem Date.toOrdinal_nextWrapped (d : Date) (h : d.valid) :
    d.nextWrapped.toOrdinal = (d.toOrdinal + 1) % 366 :=
  (d.ordFacts_of_valid h).2.2.2

theorem Date.ofOrdinal_valid (n : Nat) (h : n < 366) : (Date.ofOrdinal n).valid :=
  (ofOrdinalFacts n h).1

theorem Date.toOrdinal_ofOrdinal (n : Nat) (h : n < 366) : (Date.ofOrdinal n).toOrdinal = n :=
  (ofOrdinalFacts n h).2

theorem Date.toOrdinal_inj (d e : Date) (hd : d.valid) (he : e.valid)
    (h : d.toOrdinal = e.toOrdinal) : d = e := by
  have h1 := d.ofOrdinal_toOrdinal hd
  have h2 := e.ofOrdinal_toOrdinal he
  rw [← h1, ← h2, h]

theorem Date.ofOrdinal_inj (m n : Nat) (hm : m < 366) (hn : n < 366)
    (h : Date.ofOrdinal m = Date.ofOrdinal n) : m = n := by
  have h1 := Date.toOrdinal_ofOrdinal m hm
  have h2 := Date.toOrdinal_ofOrdinal n hn
  rw [← h1, ← h2, h]

theorem spanLen_pos (s en : Date) : 1 ≤ spanLen s en := by
  unfold spanLen; omega

theorem spanLen_le (s en : Date) : spanLen s en ≤ 366 := by
  unfold spanLen; omega

/-! ### Closed form of the `active_days` loop -/

theorem activeDaysFrom_closed (fuel : Nat) :
    ∀ (s en : Date), s.valid → en.valid → spanLen s en ≤ fuel →
    activeDaysFrom fuel s en =
      (List.range (spanLen s en)).map (fun i => Date.ofOrdinal ((s.toOrdinal + i) % 366)) := by
  induction fuel with
  | zero =>
    intro s en _ _ hle
    exact absurd hle (by have := spanLen_pos s en; omega)
  | succ f ih =>
    intro s en hs hen hle
    have hslt := s.toOrdinal_lt hs
    have helt := en.toOrdinal_lt hen
    by_cases hse : s = en
    · subst hse
      have h1 : spanLen s s = 1 := by unfold spanLen; omega
      rw [h1]
      have hL : activeDaysFrom (f + 1) s s = [s] := by simp [activeDaysFrom]
      rw [hL]
      have hR : (List.range 1).map (fun i => Date.ofOrdinal ((s.toOrdinal + i) % 366))
          = [Date.ofOrdinal (s.toOrdinal % 366)] := rfl
      rw [hR, Nat.mod_eq_of_lt hslt, s.ofOrdinal_toOrdinal hs]
    · have hne : s.toOrdinal ≠ en.toOrdinal := fun hh => hse (Date.toOrdinal_inj s en hs hen hh)
      have hnv := s.nextWrapped_valid hs
      have hno := s.toOrdinal_nextWrapped hs
      have hspan2 : spanLen s.nextWrapped en = spanLen s en - 1 := by
        unfold spanLen; rw [hno]; omega
      have hn2 : 2 ≤ spanLen s en := by unfold spanLen; omega
      have hle2 : spanLen s.nextWrapped en ≤ f := by omega
      have ihp := ih s.nextWrapped en hnv hen hle2
      rw [hspan2] at ihp
      obtain ⟨k, hk⟩ : ∃ k, spanLen s en = k + 1 + 1 := ⟨spanLen s en - 2, by omega⟩
      have hR : (List.range (k + 1 + 1)).map (fun i => Date.ofOrdinal ((s.toOrdinal + i) % 366))
          = s :: (List.range (k + 1)).map
              (fun i => Date.ofOrdinal ((s.nextWrapped.toOrdinal + i) % 366)) := by
        rw [List.range_succ_eq_map, List.map_cons, List.map_map]
        congr 1
        · show Date.ofOrdinal ((s.toOrdinal + 0) % 366) = s
          rw [Nat.add_zero, Nat.mod_eq_of_lt hslt, s.ofOrdinal_toOrdinal hs]
        · apply List.map_congr_left
          intro i _
          show Date.ofOrdinal ((s.toOrdinal + (i + 1)) % 366)
              = Date.ofOrdinal ((s.nextWrapped.toOrdinal + i) % 366)
          congr 1
          rw [hno]
          omega
      simp only [activeDaysFrom, if_neg hse]
      rw [ihp, hk, Nat.add_sub_cancel, hR]

theorem activeDaysFrom_fuel_indep (s en : Date) (hs : s.valid) (hen : en.valid)
    (fuel : Nat) (hf : 366 ≤ fuel) :
    activeDaysFrom fuel s en = activeDaysFrom 366 s en := by
  have h1 := activeDaysFrom_closed fuel s en hs hen (le_trans (spanLen_le s en) hf)
  have h2 := activeDaysFrom_closed 366 s en hs hen (spanLen_le s en)
  rw [h1, h2]

theorem activeDaysFrom_length (s en : Date) (hs : s.valid) (hen : en.valid) :
    (activeDaysFrom 366 s en).length = spanLen s en := by
  rw [activeDaysFrom_closed 366 s en hs hen (spanLen_le s en), List.length_map,
    List.length_range]

theorem activeDaysFrom_mem_valid (s en : Date) (hs : s.valid) (hen : en.valid)
    (d : Date) (hd : d ∈ activeDaysFrom 366 s en) : d.valid := by
  rw [activeDaysFrom_closed 366 s en hs hen (spanLen_le s en)] at hd
  obtain ⟨i, _, hi⟩ := List.mem_map.mp hd
  rw [← hi]
  exact Date.ofOrdinal_valid _ (Nat.mod_lt _ (by omega))

theorem activeDaysFrom_nodup (s en : Date) (hs : s.valid) (hen : en.valid) :
    (activeDaysFrom 366 s en).Nodup := by
  rw [activeDaysFrom_closed 366 s en hs hen (spanLen_le s en)]
  apply List.Nodup.map_on
  · intro i hi j hj hij
    rw [List.mem_range] at hi hj
    have hsl := spanLen_le s en
    have h1 : (s.toOrdinal + i) % 366 = (s.toOrdinal + j) % 366 :=
      Date.ofOrdinal_inj _ _ (Nat.mod_lt _ (by omega)) (Nat.mod_lt _ (by omega)) hij
    omega
  · exact List.nodup_range _

theorem activeDaysFrom_mem_iff (s en : Date) (hs : s.valid) (hen : en.valid) (d : Date) :
    d ∈ activeDaysFrom 366 s en ↔
      d.valid ∧ (d.toOrdinal + 366 - s.toOrdinal) % 366 < spanLen s en := by
  rw [activeDaysFrom_closed 366 s en hs hen (spanLen_le s en)]
  have hslt := s.toOrdinal_lt hs
  constructor
  · intro hd
    obtain ⟨i, hi, hmap⟩ := List.mem_map.mp hd
    rw [List.mem_range] at hi
    have hv : d.valid := by
      rw [← hmap]; exact Date.ofOrdinal_valid _ (Nat.mod_lt _ (by omega))
    refine ⟨hv, ?_⟩
    have : d.toOrdinal = (s.toOrdinal + i) % 366 := by
      rw [← hmap]; exact Date.toOrdinal_ofOrdinal _ (Nat.mod_lt _ (by omega))
    have hsl := spanLen_le s en
    omega
  · rintro ⟨hv, hlt⟩
    apply List.mem_map.mpr
    refine ⟨(d.toOrdinal + 366 - s.toOrdinal) % 366, List.mem_range.mpr hlt, ?_⟩
    have hdlt := d.toOrdinal_lt hv
    have harg : (s.toOrdinal + (d.toOrdinal + 366 - s.toOrdinal) % 366) % 366 = d.toOrdinal := by
      omega
    rw [harg]
    exact d.ofOrdinal_toOrdinal hv

theorem activeDaysFrom_mem_end (s en : Date) (hs : s.valid) (hen : en.valid) :
    en ∈ activeDaysFrom 366 s en := by
  rw [activeDaysFrom_mem_iff s en hs hen en]
  refine ⟨hen, ?_⟩
  have h1 := s.toOrdinal_lt hs
  have h2 := en.toOrdinal_lt hen
  unfold spanLen
  omega

/-! ### The schedule mapping of `find_collisions` -/

theorem lookupDay_cons (p : Date × List Event) (rest : List (Date × List Event)) (d : Date) :
    lookupDay (p :: rest) d = if p.1 = d then p.2 else lookupDay rest d := rfl

theorem keysOf_cons (p : Date × List Event) (rest : List (Date × List Event)) :
    keysOf (p :: rest) = p.1 :: keysOf rest := rfl

theorem lookupDay_scheduleInsert (sched : List (Date × List Event)) (d : Date) (e : Event)
    (x : Date) :
    lookupDay (scheduleInsert sched d e) x =
      if x = d then lookupDay sched d ++ [e] else lookupDay sched x := by
  induction sched with
  | nil =>
    by_cases hxd : x = d
    · subst hxd; simp [scheduleInsert, lookupDay]
    · have hdx : ¬d = x := fun h => hxd h.symm
      simp [scheduleInsert, lookupDay, hxd, hdx]
  | cons p rest ih =>
    by_cases hpd : p.1 = d
    · by_cases hxd : x = d
      · subst hxd
        simp [scheduleInsert, lookupDay, hpd]
      · have hdx : ¬d = x := fun h => hxd h.symm
        simp [scheduleInsert, lookupDay, hpd, hxd, hdx]
    · by_cases hxd : x = d
      · subst hxd
        have hpx : ¬p.1 = x := hpd
        simp [scheduleInsert, lookupDay, hpd, hpx, ih]
      · simp [scheduleInsert, lookupDay, hpd, hxd, ih]

theorem keysOf_scheduleInsert (sched : List (Date × List Event)) (d : Date) (e : Event) :
    keysOf (scheduleInsert sched d e) =
      if d ∈ keysOf sched then keysOf sched else keysOf sched ++ [d] := by
  induction sched with
  | nil => simp [scheduleInsert, keysOf]
  | cons p rest ih =>
    by_cases hpd : p.1 = d
    · have h1 : scheduleInsert (p :: rest) d e = (p.1, p.2 ++ [e]) :: rest := by
        simp [scheduleInsert, hpd]
      have hmem : d ∈ keysOf (p :: rest) := by
        rw [keysOf_cons, ← hpd]; exact List.mem_cons_self _ _
      rw [h1, if_pos hmem, keysOf_cons, keysOf_cons]
    · have h1 : scheduleInsert (p :: rest) d e = p :: scheduleInsert rest d e := by
        simp [scheduleInsert, hpd]
      have hdp : ¬d = p.1 := fun h => hpd h.symm
      rw [h1, keysOf_cons, ih, keysOf_cons]
      by_cases hmem : d ∈ keysOf rest
      · rw [if_pos hmem, if_pos (List.mem_cons_of_mem _ hmem)]
      · have hnm : ¬d ∈ p.1 :: keysOf rest := by
          intro hc
          rcases List.mem_cons.mp hc with hh | hh
          · exact hdp hh
          · exact hmem hh
        rw [if_neg hmem, if_neg hnm, List.cons_append]

theorem mem_keysOf_scheduleInsert (sched : List (Date × List Event)) (d : Date) (e : Event)
    (x : Date) :
    x ∈ keysOf (scheduleInsert sched d e) ↔ x ∈ keysOf sched ∨ x = d := by
  rw [keysOf_scheduleInsert]
  by_cases hmem : d ∈ keysOf sched
  · rw [if_pos hmem]
    constructor
    · exact Or.inl
    · rintro (h | rfl)
      · exact h
      · exact hmem
  · rw [if_neg hmem]
    simp

theorem nodup_keysOf_scheduleInsert (sched : List (Date × List Event)) (d : Date) (e : Event)
    (h : (keysOf sched).Nodup) : (keysOf (scheduleInsert sched d e)).Nodup := by
  rw [keysOf_scheduleInsert]
  by_cases hmem : d ∈ keysOf sched
  · rw [if_pos hmem]; exact h
  · rw [if_neg hmem]
    simp [List.nodup_append, h, hmem]

theorem mem_keysOf (sched : List (Date × List Event)) (d : Date) :
    d ∈ keysOf sched ↔ ∃ es, (d, es) ∈ sched := by
  unfold keysOf
  rw [List.mem_map]
  constructor
  · rintro ⟨⟨a, b⟩, hmem, rfl⟩
    exact ⟨b, hmem⟩
  · rintro ⟨es, hmem⟩
    exact ⟨(d, es), hmem, rfl⟩

theorem mem_sched_iff (sched : List (Date × List Event)) (d : Date) (es : List Event)
    (h : (keysOf sched).Nodup) :
    (d, es) ∈ sched ↔ (d ∈ keysOf sched ∧ lookupDay sched d = es) := by
  induction sched with
  | nil => simp [keysOf, lookupDay]
  | cons p rest ih =>
    rw [keysOf_cons, List.nodup_cons] at h
    obtain ⟨hnotin, hnd⟩ := h
    rw [keysOf_cons, lookupDay_cons, List.mem_cons, List.mem_cons]
    by_cases hdp : p.1 = d
    · rw [if_pos hdp]
      rw [hdp] at hnotin
      constructor
      · rintro (heq | hmem2)
        · exact ⟨Or.inl (congrArg Prod.fst heq), (congrArg Prod.snd heq).symm⟩
        · exact absurd ((mem_keysOf rest d).mpr ⟨es, hmem2⟩) hnotin
      · rintro ⟨-, hlk⟩
        exact Or.inl (Prod.ext_iff.mpr ⟨hdp.symm, hlk.symm⟩)
    · rw [if_neg hdp]
      constructor
      · rintro (heq | hmem2)
        · exact absurd (congrArg Prod.fst heq).symm hdp
        · obtain ⟨hk, hl⟩ := (ih hnd).mp hmem2
          exact ⟨Or.inr hk, hl⟩
      · rintro ⟨hd | hk, hl⟩
        · exact absurd hd.symm hdp
        · exact Or.inr ((ih hnd).mpr ⟨hk, hl⟩)

theorem lookupDay_insertDays (e : Event) (days : List Date) :
    ∀ (sched : List (Date × List Event)) (x : Date), days.Nodup →
    lookupDay (days.foldl (fun s day => scheduleInsert s day e) sched) x =
      lookupDay sched x ++ (if x ∈ days then [e] else []) := by
  induction days with
  | nil =>
    intro sched x _
    simp [lookupDay]
  | cons day rest ih =>
    intro sched x hnd
    rw [List.nodup_cons] at hnd
    obtain ⟨hnotin, hnd⟩ := hnd
    rw [List.foldl_cons, ih _ _ hnd, lookupDay_scheduleInsert]
    by_cases hxd : x = day
    · subst hxd
      rw [if_pos rfl, if_pos (List.mem_cons_self _ _), if_neg hnotin]
      simp
    · rw [if_neg hxd]
      by_cases hxr : x ∈ rest
      · rw [if_pos hxr, if_pos (List.mem_cons_of_mem _ hxr)]
      · have hnc : ¬x ∈ day :: rest := by
          intro hc
          rcases List.mem_cons.mp hc with hh | hh
          · exact hxd hh
          · exact hxr hh
        rw [if_neg hxr, if_neg hnc]

theorem mem_keysOf_insertDays (e : Event) (days : List Date) :
    ∀ (sched : List (Date × List Event)) (x : Date),
    x ∈ keysOf (days.foldl (fun s day => scheduleInsert s day e) sched) ↔
      x ∈ keysOf sched ∨ x ∈ days := by
  induction days with
  | nil =>
    intro sched x
    simp
  | cons day rest ih =>
    intro sched x
    rw [List.foldl_cons, ih, mem_keysOf_scheduleInsert, List.mem_cons]
    tauto

theorem nodup_keysOf_insertDays (e : Event) (days : List Date) :
    ∀ (sched : List (Date × List Event)), (keysOf sched).Nodup →
    (keysOf (days.foldl (fun s day => scheduleInsert s day e) sched)).Nodup := by
  induction days with
  | nil =>
    intro sched h
    exact h
  | cons day rest ih =>
    intro sched h
    rw [List.foldl_cons]
    exact ih _ (nodup_keysOf_scheduleInsert _ _ _ h)

theorem datesOk_spec (e : Event) (h : e.datesOk = true) :
    ∃ s en, e.start_date = some s ∧ e.end_date = some en ∧ s.valid ∧ en.valid ∧
      active_days e = .ok (activeDaysFrom 366 s en) := by
  unfold Event.datesOk at h
  match hs : e.start_date, he : e.end_date with
  | some s, some en =>
    rw [hs, he] at h
    rw [Bool.and_eq_true] at h
    refine ⟨s, en, rfl, rfl, h.1, h.2, ?_⟩
    unfold active_days
    rw [hs, he]
  | some s, none => rw [hs, he] at h; exact absurd h (by simp)
  | none, some en => rw [hs, he] at h; exact absurd h (by simp)
  | none, none => rw [hs, he] at h; exact absurd h (by simp)

theorem claimsDay_eq_mem (e : Event) (days : List Date)
    (h : active_days e = .ok days) (d : Date) :
    claimsDay e d = decide (d ∈ days) := by
  unfold claimsDay
  rw [h]

theorem claimants_nil (d : Date) : claimants [] d = [] := rfl

theorem claimants_append_singleton (events : List Event) (e : Event) (d : Date) :
    claimants (events ++ [e]) d =
      claimants events d ++ (if claimsDay e d = true then [e] else []) := by
  unfold claimants
  rw [List.filter_append]
  congr 1
  simp only [List.filter]
  by_cases hc : claimsDay e d = true
  · rw [hc, if_pos rfl]
  · rw [Bool.not_eq_true] at hc
    rw [hc]
    simp

theorem claimants_ne_nil_append (events : List Event) (e : Event) (d : Date) :
    claimants (events ++ [e]) d ≠ [] ↔
      (claimants events d ≠ [] ∨ claimsDay e d = true) := by
  rw [claimants_append_singleton]
  by_cases hc : claimsDay e d = true
  · rw [if_pos hc]
    simp [hc]
  · rw [if_neg hc]
    simp [hc]

theorem buildSchedule_invariant (events : List Event) :
    (∀ e ∈ events, e.datesOk = true) →
    ∀ (sched : List (Date × List Event)) (processed : List Event),
    (keysOf sched).Nodup →
    (∀ d, lookupDay sched d = claimants processed d) →
    (∀ d, d ∈ keysOf sched ↔ claimants processed d ≠ []) →
    ∃ final, buildSchedule events sched = .ok final ∧
      (keysOf final).Nodup ∧
      (∀ d, lookupDay final d = claimants (processed ++ events) d) ∧
      (∀ d, d ∈ keysOf final ↔ claimants (processed ++ events) d ≠ []) := by
  induction events with
  | nil =>
    intro _ sched processed h1 h2 h3
    exact ⟨sched, rfl, h1, by simpa using h2, by simpa using h3⟩
  | cons e rest ih =>
    intro hall sched processed h1 h2 h3
    have he := hall e (List.mem_cons_self _ _)
    obtain ⟨s, en, hs, hen, hvs, hven, had⟩ := datesOk_spec e he
    have hdnd : (activeDaysFrom 366 s en).Nodup := activeDaysFrom_nodup s en hvs hven
    have hstep : buildSchedule (e :: rest) sched =
        buildSchedule rest
          ((activeDaysFrom 366 s en).foldl (fun sc day => scheduleInsert sc day e) sched) := by
      have hmatch : buildSchedule (e :: rest) sched =
          match active_days e with
          | Except.error err => Except.error err
          | Except.ok days => buildSchedule rest
              (days.foldl (fun sc day => scheduleInsert sc day e) sched) := rfl
      rw [hmatch, had]
    rw [hstep]
    set sched2 := (activeDaysFrom 366 s en).foldl (fun sc day => scheduleInsert sc day e) sched
      with hsched2
    have h1n : (keysOf sched2).Nodup := nodup_keysOf_insertDays e _ sched h1
    have h2n : ∀ d, lookupDay sched2 d = claimants (processed ++ [e]) d := by
      intro d
      rw [hsched2, lookupDay_insertDays e _ sched d hdnd, h2,
        claimants_append_singleton, claimsDay_eq_mem e _ had d]
      by_cases hm : d ∈ activeDaysFrom 366 s en
      · rw [if_pos hm, if_pos (by rw [decide_eq_true_eq]; exact hm)]
      · rw [if_neg hm, if_neg (by rw [decide_eq_true_eq]; exact hm)]
    have h3n : ∀ d, d ∈ keysOf sched2 ↔ claimants (processed ++ [e]) d ≠ [] := by
      intro d
      rw [hsched2, mem_keysOf_insertDays, h3, claimants_ne_nil_append,
        claimsDay_eq_mem e _ had d, decide_eq_true_eq]
    have hrest : ∀ x ∈ rest, x.datesOk = true := fun x hx =>
      hall x (List.mem_cons_of_mem _ hx)
    obtain ⟨final, hfin, hk, hl, hm⟩ := ih hrest sched2 (processed ++ [e]) h1n h2n h3n
    refine ⟨final, hfin, hk, ?_, ?_⟩
    · intro d
      rw [hl d, List.append_assoc, List.singleton_append]
    · intro d
      rw [hm d, List.append_assoc, List.singleton_append]

theorem find_collisions_spec (events : List Event)
    (h : ∀ e ∈ events, e.datesOk = true) :
    ∃ m, find_collisions events = .ok m ∧
      ∀ d es, (d, es) ∈ m ↔ (es = claimants events d ∧ 2 ≤ (claimants events d).length) := by
  obtain ⟨final, hfin, hk, hl, hm⟩ :=
    buildSchedule_invariant events h [] []
      (by simp [keysOf]) (fun d => rfl) (fun d => by simp [keysOf, claimants_nil])
  rw [List.nil_append] at hl hm
  refine ⟨final.filter (fun p => decide (1 < p.2.length)), ?_, ?_⟩
  · unfold find_collisions
    rw [hfin]
  · intro d es
    rw [List.mem_filter, mem_sched_iff final d es hk]
    constructor
    · rintro ⟨⟨hkey, hlk⟩, hdec⟩
      have hes : es = claimants events d := by rw [← hlk, hl]
      rw [decide_eq_true_eq] at hdec
      have hdec2 : 1 < es.length := hdec
      exact ⟨hes, by rw [← hes]; omega⟩
    · rintro ⟨hes, hlen⟩
      refine ⟨⟨?_, ?_⟩, ?_⟩
      · rw [hm d]
        intro hnil
        rw [hnil] at hlen
        simp at hlen
      · rw [hl d, hes]
      · rw [decide_eq_true_eq]
        show 1 < es.length
        rw [hes]
        omega

/-! ### Error shapes and report-message disjointness -/

theorem active_days_error_shape (e : Event) (err : VError)
    (h : active_days e = .error err) :
    err = .runtimeError "Cannot generate days: event does not have start and date!" := by
  unfold active_days at h
  match hs : e.start_date, he : e.end_date with
  | some s, some en =>
    rw [hs, he] at h
    exact absurd h (by intro hc; injection hc)
  | some s, none =>
    rw [hs, he] at h
    injection h with h1
    exact h1.symm
  | none, some en =>
    rw [hs, he] at h
    injection h with h1
    exact h1.symm
  | none, none =>
    rw [hs, he] at h
    injection h with h1
    exact h1.symm

theorem buildSchedule_error_shape (events : List Event) :
    ∀ (sched : List (Date × List Event)) (err : VError),
    buildSchedule events sched = .error err →
    err = .runtimeError "Cannot generate days: event does not have start and date!" := by
  induction events with
  | nil =>
    intro sched err h
    exact absurd h (by intro hc; injection hc)
  | cons e rest ih =>
    intro sched err h
    have hmatch : buildSchedule (e :: rest) sched =
        match active_days e with
        | Except.error err2 => Except.error err2
        | Except.ok days => buildSchedule rest
            (days.foldl (fun sc day => scheduleInsert sc day e) sched) := rfl
    cases had : active_days e with
    | error err2 =>
      rw [hmatch, had] at h
      injection h with h1
      rw [← h1]
      exact active_days_error_shape e err2 had
    | ok days =>
      rw [hmatch, had] at h
      exact ih _ err h

theorem find_collisions_error_shape (events : List Event) (err : VError)
    (h : find_collisions events = .error err) :
    err = .runtimeError "Cannot generate days: event does not have start and date!" := by
  unfold find_collisions at h
  cases hb : buildSchedule events [] with
  | ok sched =>
    rw [hb] at h
    exact absurd h (by intro hc; injection hc)
  | error err2 =>
    rw [hb] at h
    injection h with h1
    rw [← h1]
    exact buildSchedule_error_shape events [] err2 hb

theorem collisionMsg_ne_noFallback (r : String) :
    "Event collision detected:\n" ++ r ≠ "There is no fallback event" := by
  intro h
  have hd := congrArg String.data h
  rw [String.data_append _ _] at hd
  have h1 : ("Event collision detected:\n").data
      = 'E' :: ("vent collision detected:\n").data := rfl
  have h2 : ("There is no fallback event").data
      = 'T' :: ("here is no fallback event").data := rfl
  rw [h1, h2, List.cons_append] at hd
  injection hd with hc
  exact absurd hc (by decide)

theorem collisionMsg_ne_multi (r ns : String) :
    "Event collision detected:\n" ++ r ≠
      "There are multiple fallback events: " ++ ns ++ " (must be exactly 1)" := by
  intro h
  have hd := congrArg String.data h
  rw [String.data_append _ _, String.data_append _ _, String.data_append _ _] at hd
  have h1 : ("Event collision detected:\n").data
      = 'E' :: ("vent collision detected:\n").data := rfl
  have h2 : ("There are multiple fallback events: ").data
      = 'T' :: ("here are multiple fallback events: ").data := rfl
  rw [h1, h2, List.cons_append, List.cons_append, List.cons_append] at hd
  injection hd with hc
  exact absurd hc (by decide)

/-! ### Branches of `check_date_configuration` -/

theorem check_zero_fallback (events : List Event)
    (h : (events.filter (fun e => e.fallback)).length = 0) :
    check_date_configuration events = .error (.misconfiguration "There is no fallback event") := by
  have hnil : events.filter (fun e => e.fallback) = [] := List.length_eq_zero.mp h
  unfold check_date_configuration
  rw [hnil]
  rfl

theorem check_multi_fallback (events : List Event)
    (h : 2 ≤ (events.filter (fun e => e.fallback)).length) :
    check_date_configuration events = .error (.misconfiguration
      ("There are multiple fallback events: " ++
        String.intercalate ", " ((events.filter (fun e => e.fallback)).map (fun e => e.name)) ++
        " (must be exactly 1)")) := by
  have hne : (events.filter (fun e => e.fallback)).isEmpty = false := by
    cases hc : events.filter (fun e => e.fallback) with
    | nil => rw [hc] at h; simp at h
    | cons a l => rfl
  have hlt : 1 < (events.filter (fun e => e.fallback)).length := by omega
  unfold check_date_configuration
  rw [hne]
  rw [if_neg (by simp), if_pos hlt]

theorem check_one_fallback (events : List Event)
    (h : (events.filter (fun e => e.fallback)).length = 1) :
    check_date_configuration events =
      match find_collisions (events.filter (fun e => !e.fallback)) with
      | Except.error err => Except.error err
      | Except.ok collisions =>
        if collisions.isEmpty then Except.ok ()
        else Except.error (VError.misconfiguration ("Event collision detected:\n" ++
          String.intercalate "\n" (collisions.map (fun p =>
            formatMonthDay p.1 ++ ": " ++
              String.intercalate ", " (p.2.map (fun e => e.name)))))) := by
  have hne : (events.filter (fun e => e.fallback)).isEmpty = false := by
    cases hc : events.filter (fun e => e.fallback) with
    | nil => rw [hc] at h; simp at h
    | cons a l => rfl
  have hnlt : ¬1 < (events.filter (fun e => e.fallback)).length := by omega
  unfold check_date_configuration
  rw [hne]
  rw [if_neg (by simp), if_neg hnlt]

/-! ### The claims -/

/-- C6: for every event whose start_date equals its end_date (both set),
active_days yields exactly one date, equal to that day. -/
theorem C6_single_day (e : Event) (d : Date)
    (hs : e.start_date = some d) (he : e.end_date = some d) :
    active_days e = .ok [d] := by
  unfold active_days
  rw [hs, he]
  show Except.ok (activeDaysFrom 366 d d) = Except.ok [d]
  have h1 : activeDaysFrom 366 d d = [d] := by simp [activeDaysFrom]
  rw [h1]

/-- C6 witness: a concrete single-day event (February 29) enumerates to exactly
that one day. -/
theorem C6_witness :
    (Event.mk "S" false (some ⟨2, 29⟩) (some ⟨2, 29⟩) "s").start_date = some ⟨2, 29⟩ ∧
    (Event.mk "S" false (some ⟨2, 29⟩) (some ⟨2, 29⟩) "s").end_date = some ⟨2, 29⟩ ∧
    active_days (Event.mk "S" false (some ⟨2, 29⟩) (some ⟨2, 29⟩) "s") = .ok [⟨2, 29⟩] :=
  ⟨rfl, rfl, C6_single_day (Event.mk "S" false (some ⟨2, 29⟩) (some ⟨2, 29⟩) "s") ⟨2, 29⟩ rfl rfl⟩

/-- C8: for every event with both dates set to valid dates of the reference
year, the enumeration terminates: it is the fixed finite list of at most 366
days computed by the loop, the end date is reached (the loop stops via its
break), any larger fuel bound yields the identical sequence, and re-invocation
is the same pure function value. -/
theorem C8_terminates (e : Event) (s en : Date)
    (hs : e.start_date = some s) (he : e.end_date = some en)
    (hvs : s.valid) (hven : en.valid) :
    active_days e = .ok (activeDaysFrom 366 s en) ∧
    (activeDaysFrom 366 s en).length ≤ 366 ∧
    en ∈ activeDaysFrom 366 s en ∧
    (∀ fuel, 366 ≤ fuel → activeDaysFrom fuel s en = activeDaysFrom 366 s en) := by
  refine ⟨?_, ?_, ?_, ?_⟩
  · unfold active_days
    rw [hs, he]
  · rw [activeDaysFrom_length s en hvs hven]
    exact spanLen_le s en
  · exact activeDaysFrom_mem_end s en hvs hven
  · exact fun fuel hf => activeDaysFrom_fuel_indep s en hvs hven fuel hf

/-- C8 witness: the January 1 – January 10 event terminates with the end date
reached and a fuel-independent sequence. -/
theorem C8_witness :
    (⟨1, 1⟩ : Date).valid ∧ (⟨1, 10⟩ : Date).valid ∧
    (active_days evA = .ok (activeDaysFrom 366 ⟨1, 1⟩ ⟨1, 10⟩) ∧
      (activeDaysFrom 366 ⟨1, 1⟩ ⟨1, 10⟩).length ≤ 366 ∧
      (⟨1, 10⟩ : Date) ∈ activeDaysFrom 366 ⟨1, 1⟩ ⟨1, 10⟩ ∧
      (∀ fuel, 366 ≤ fuel →
        activeDaysFrom fuel ⟨1, 1⟩ ⟨1, 10⟩ = activeDaysFrom 366 ⟨1, 1⟩ ⟨1, 10⟩)) :=
  ⟨by decide, by decide, C8_terminates evA ⟨1, 1⟩ ⟨1, 10⟩ rfl rfl (by decide) (by decide)⟩

/-- C9: invoking active_days on a fallback event (an event lacking start/end
dates) fails with the RuntimeError usage error; this usage error implies the
event lacks a date; and the usage error is a different exception kind from
Misconfiguration. -/
theorem C9_usage_error (e : Event) :
    (e.fallback = true → e.start_date = none → e.end_date = none →
      active_days e = .error (.runtimeError
        "Cannot generate days: event does not have start and date!")) ∧
    (∀ m, active_days e = .error (.runtimeError m) →
      e.start_date = none ∨ e.end_date = none) ∧
    (∀ m m2, (VError.runtimeError m) ≠ (VError.misconfiguration m2)) := by
  refine ⟨?_, ?_, ?_⟩
  · intro _ hs he
    unfold active_days
    rw [hs, he]
  · intro m hm
    unfold active_days at hm
    match hs : e.start_date, he : e.end_date with
    | some s, some en =>
      rw [hs, he] at hm
      exact absurd hm (by intro hc; injection hc)
    | some s, none => exact Or.inr rfl
    | none, some en => exact Or.inl rfl
    | none, none => exact Or.inl rfl
  · intro m m2 hc
    injection hc

/-- C9 witness: the usage error on the concrete fallback event, and the
RuntimeError value is not a Misconfiguration value. -/
theorem C9_witness :
    evFallback.fallback = true ∧ evFallback.start_date = none ∧ evFallback.end_date = none ∧
    active_days evFallback = .error (.runtimeError
      "Cannot generate days: event does not have start and date!") :=
  ⟨rfl, rfl, rfl, (C9_usage_error evFallback).1 rfl rfl rfl⟩

/-- C10: active_days raises its usage error exactly when a date is missing; the
fallback flag is never inspected (flipping it cannot change the result), and an
event carrying both dates is enumerated without error whatever its flag. -/
theorem C10_flag_not_inspected (e : Event) :
    ((∃ m, active_days e = .error (.runtimeError m)) ↔
      (e.start_date = none ∨ e.end_date = none)) ∧
    (∀ b, active_days { e with fallback := b } = active_days e) ∧
    (∀ s en, e.start_date = some s → e.end_date = some en →
      active_days e = .ok (activeDaysFrom 366 s en)) := by
  refine ⟨⟨?_, ?_⟩, ?_, ?_⟩
  · rintro ⟨m, hm⟩
    exact (C9_usage_error e).2.1 m hm
  · intro hmiss
    unfold active_days
    match hs : e.start_date, he : e.end_date with
    | some s, some en =>
      rw [hs, he] at hmiss
      rcases hmiss with hc | hc
      · exact absurd hc (by intro hcc; injection hcc)
      · exact absurd hc (by intro hcc; injection hcc)
    | some s, none => exact ⟨_, rfl⟩
    | none, some en => exact ⟨_, rfl⟩
    | none, none => exact ⟨_, rfl⟩
  · intro b
    rfl
  · intro s en hs he
    unfold active_days
    rw [hs, he]

/-- C10 witness: an event flagged fallback but carrying both dates is
enumerated without error, and a non-fallback event missing one date gets the
usage error. -/
theorem C10_witness :
    active_days (Event.mk "fbDates" true (some ⟨3, 1⟩) (some ⟨3, 2⟩) "x") =
      .ok (activeDaysFrom 366 ⟨3, 1⟩ ⟨3, 2⟩) ∧
    (∃ m, active_days (Event.mk "half" false (some ⟨3, 1⟩) none "x") =
      .error (.runtimeError m)) :=
  ⟨(C10_flag_not_inspected (Event.mk "fbDates" true (some ⟨3, 1⟩) (some ⟨3, 2⟩) "x")).2.2
      ⟨3, 1⟩ ⟨3, 2⟩ rfl rfl,
    ((C10_flag_not_inspected (Event.mk "half" false (some ⟨3, 1⟩) none "x")).1).mpr
      (Or.inr rfl)⟩

/-- C4: for every full-year range (end date equal to the day immediately before
the start date, with wrap-around), active_days yields every one of the 366 days
of the fixed leap reference year exactly once: length 366, no duplicates, and a
date is in the list exactly when it is a day of the reference year. -/
theorem C4_full_year (e : Event) (s en : Date)
    (hs : e.start_date = some s) (he : e.end_date = some en)
    (hvs : s.valid) (hven : en.valid) (hwrap : en.nextWrapped = s) :
    ∃ l, active_days e = .ok l ∧ l.length = 366 ∧ l.Nodup ∧ (∀ d, d ∈ l ↔ d.valid) := by
  have h1 := en.toOrdinal_nextWrapped hven
  rw [hwrap] at h1
  have h2 := s.toOrdinal_lt hvs
  have h3 := en.toOrdinal_lt hven
  refine ⟨activeDaysFrom 366 s en, ?_, ?_, ?_, ?_⟩
  · unfold active_days
    rw [hs, he]
  · rw [activeDaysFrom_length s en hvs hven]
    unfold spanLen
    omega
  · exact activeDaysFrom_nodup s en hvs hven
  · intro d
    rw [activeDaysFrom_mem_iff s en hvs hven d]
    constructor
    · exact fun h => h.1
    · intro hv
      refine ⟨hv, ?_⟩
      have h4 := d.toOrdinal_lt hv
      unfold spanLen
      omega

/-- C4 witness: the full-year event January 1 – December 31 covers all 366 days
exactly once. -/
theorem C4_witness :
    (⟨1, 1⟩ : Date).valid ∧ (⟨12, 31⟩ : Date).valid ∧
    Date.nextWrapped ⟨12, 31⟩ = ⟨1, 1⟩ ∧
    (∃ l, active_days (Event.mk "Y" false (some ⟨1, 1⟩) (some ⟨12, 31⟩) "y") = .ok l ∧
      l.length = 366 ∧ l.Nodup ∧ (∀ d, d ∈ l ↔ d.valid)) :=
  ⟨by decide, by decide, by decide,
    C4_full_year (Event.mk "Y" false (some ⟨1, 1⟩) (some ⟨12, 31⟩) "y") ⟨1, 1⟩ ⟨12, 31⟩
      rfl rfl (by decide) (by decide) (by decide)⟩

/-- C5: for every range that wraps past year-end (end ordinal before start
ordinal), active_days yields exactly the days from the start through December
31 followed by the days from January 1 through the end, and every produced
date is a day of the fixed reference year. -/
theorem C5_wrap (e : Event) (s en : Date)
    (hs : e.start_date = some s) (he : e.end_date = some en)
    (hvs : s.valid) (hven : en.valid) (hw : en.toOrdinal < s.toOrdinal) :
    active_days e =
      .ok (activeDaysFrom 366 s ⟨12, 31⟩ ++ activeDaysFrom 366 ⟨1, 1⟩ en) ∧
    (∀ d, d ∈ activeDaysFrom 366 s ⟨12, 31⟩ ++ activeDaysFrom 366 ⟨1, 1⟩ en → d.valid) := by
  have hvD : (⟨12, 31⟩ : Date).valid := by decide
  have hvJ : (⟨1, 1⟩ : Date).valid := by decide
  have hD : (⟨12, 31⟩ : Date).toOrdinal = 365 := by decide
  have hJ : (⟨1, 1⟩ : Date).toOrdinal = 0 := by decide
  have hslt := s.toOrdinal_lt hvs
  have henlt := en.toOrdinal_lt hven
  have hA := activeDaysFrom_closed 366 s ⟨12, 31⟩ hvs hvD (spanLen_le _ _)
  have hB := activeDaysFrom_closed 366 ⟨1, 1⟩ en hvJ hven (spanLen_le _ _)
  have hM := activeDaysFrom_closed 366 s en hvs hven (spanLen_le _ _)
  have hsA : spanLen s ⟨12, 31⟩ = 366 - s.toOrdinal := by
    unfold spanLen; rw [hD]; omega
  have hsB : spanLen ⟨1, 1⟩ en = en.toOrdinal + 1 := by
    unfold spanLen; rw [hJ]; omega
  have hsM : spanLen s en = (366 - s.toOrdinal) + (en.toOrdinal + 1) := by
    unfold spanLen; omega
  rw [hsA] at hA
  rw [hsB, hJ] at hB
  rw [hsM] at hM
  constructor
  · unfold active_days
    rw [hs, he]
    show Except.ok (activeDaysFrom 366 s en) = _
    congr 1
    rw [hM, hA, hB, List.range_add, List.map_append, List.map_map]
    congr 1
    apply List.map_congr_left
    intro i hi
    show Date.ofOrdinal ((s.toOrdinal + (366 - s.toOrdinal + i)) % 366)
        = Date.ofOrdinal ((0 + i) % 366)
    congr 1
    omega
  · intro d hd
    rcases List.mem_append.mp hd with h | h
    · exact activeDaysFrom_mem_valid s ⟨12, 31⟩ hvs hvD d h
    · exact activeDaysFrom_mem_valid ⟨1, 1⟩ en hvJ hven d h

/-- C5 witness: the December 30 – January 2 event yields exactly the four days
December 30, December 31, January 1, January 2. -/
theorem C5_witness :
    (⟨12, 30⟩ : Date).valid ∧ (⟨1, 2⟩ : Date).valid ∧
    (⟨1, 2⟩ : Date).toOrdinal < (⟨12, 30⟩ : Date).toOrdinal ∧
    active_days evW1 =
      .ok (activeDaysFrom 366 ⟨12, 30⟩ ⟨12, 31⟩ ++ activeDaysFrom 366 ⟨1, 1⟩ ⟨1, 2⟩) ∧
    activeDaysFrom 366 ⟨12, 30⟩ ⟨12, 31⟩ ++ activeDaysFrom 366 ⟨1, 1⟩ ⟨1, 2⟩ =
      [⟨12, 30⟩, ⟨12, 31⟩, ⟨1, 1⟩, ⟨1, 2⟩] :=
  ⟨by decide, by decide, by decide,
    (C5_wrap evW1 ⟨12, 30⟩ ⟨1, 2⟩ rfl rfl (by decide) (by decide) (by decide)).1,
    by decide⟩

/-- C1: for every list of events that all carry both (valid) dates,
find_collisions succeeds, and its entries are exactly the pairs of a day
claimed by two or more events together with the full list of claiming events
in input (insertion) order, each claiming event contributed exactly once by the
filter over the input list. -/
theorem C1_find_collisions (events : List Event)
    (h : ∀ e ∈ events, e.datesOk = true) :
    ∃ m, find_collisions events = .ok m ∧
      ∀ d es, (d, es) ∈ m ↔
        (es = claimants events d ∧ 2 ≤ (claimants events d).length) :=
  find_collisions_spec events h

set_option maxHeartbeats 1600000 in
/-- C1 witness: for A: January 1 – January 10 and B: January 5 – January 20,
the collision mapping has exactly the keys January 5 – January 10, each mapped
to the pair list A, B in input order. -/
theorem C1_witness :
    (∀ e ∈ [evA, evB], e.datesOk = true) ∧
    (∃ m, find_collisions [evA, evB] = .ok m ∧
      ∀ d es, (d, es) ∈ m ↔
        (es = claimants [evA, evB] d ∧ 2 ≤ (claimants [evA, evB] d).length)) ∧
    find_collisions [evA, evB] = .ok
      [(⟨1, 5⟩, [evA, evB]), (⟨1, 6⟩, [evA, evB]), (⟨1, 7⟩, [evA, evB]),
        (⟨1, 8⟩, [evA, evB]), (⟨1, 9⟩, [evA, evB]), (⟨1, 10⟩, [evA, evB])] :=
  ⟨by decide, C1_find_collisions [evA, evB] (by decide), by rfl⟩

/-- C3: check_date_configuration fails with the fallback-cardinality
Misconfiguration exactly when the number of fallback-flagged events is not 1:
with zero fallback events the message says there is no fallback event, with two
or more it enumerates all offending names, and in both cases this happens
whatever the other events' dates are (collision checking is not reached); with
exactly one fallback event the raised Misconfiguration, if any, is never a
fallback-cardinality message. -/
theorem C3_fallback_cardinality (events : List Event) :
    ((events.filter (fun e => e.fallback)).length = 0 →
      check_date_configuration events =
        .error (.misconfiguration "There is no fallback event")) ∧
    (2 ≤ (events.filter (fun e => e.fallback)).length →
      check_date_configuration events = .error (.misconfiguration
        ("There are multiple fallback events: " ++
          String.intercalate ", "
            ((events.filter (fun e => e.fallback)).map (fun e => e.name)) ++
          " (must be exactly 1)"))) ∧
    ((∃ m, check_date_configuration events = .error (.misconfiguration m) ∧
        IsFallbackCardinalityMsg m) ↔
      (events.filter (fun e => e.fallback)).length ≠ 1) := by
  refine ⟨check_zero_fallback events, check_multi_fallback events, ?_, ?_⟩
  · rintro ⟨m, hm, hcard⟩ h1
    rw [check_one_fallback events h1] at hm
    cases hfc : find_collisions (events.filter (fun e => !e.fallback)) with
    | error err =>
      rw [hfc] at hm
      injection hm with h2
      have hshape := find_collisions_error_shape _ err hfc
      rw [hshape] at h2
      injection h2
    | ok cols =>
      rw [hfc] at hm
      have hm2 : (if cols.isEmpty = true then (Except.ok () : Except VError Unit)
          else Except.error (VError.misconfiguration ("Event collision detected:\n" ++
            String.intercalate "\n" (cols.map (fun p =>
              formatMonthDay p.1 ++ ": " ++
                String.intercalate ", " (p.2.map (fun e => e.name))))))) =
          Except.error (VError.misconfiguration m) := hm
      by_cases hemp : cols.isEmpty = true
      · rw [if_pos hemp] at hm2
        exact absurd hm2 (by intro hc; injection hc)
      · rw [if_neg hemp] at hm2
        injection hm2 with h2
        injection h2 with h3
        rcases hcard with hc1 | ⟨ns, hc2⟩
        · exact collisionMsg_ne_noFallback _ (h3.trans hc1)
        · exact collisionMsg_ne_multi _ ns (h3.trans hc2)
  · intro hne
    have hcases : (events.filter (fun e => e.fallback)).length = 0 ∨
        2 ≤ (events.filter (fun e => e.fallback)).length := by omega
    rcases hcases with h0 | h2
    · exact ⟨"There is no fallback event", check_zero_fallback events h0, Or.inl rfl⟩
    · exact ⟨_, check_multi_fallback events h2,
        Or.inr ⟨String.intercalate ", "
          ((events.filter (fun e => e.fallback)).map (fun e => e.name)), rfl⟩⟩

/-- C3 witness: with no fallback event (and colliding dates among the others),
the failure is the no-fallback-event Misconfiguration. -/
theorem C3_witness :
    (([evW1, evW2].filter (fun e => e.fallback)).length = 0) ∧
    check_date_configuration [evW1, evW2] =
      .error (.misconfiguration "There is no fallback event") :=
  ⟨by decide, (C3_fallback_cardinality [evW1, evW2]).1 (by decide)⟩

/-- C2 (amended): when exactly one event is fallback-flagged and the collision
mapping is non-empty, check_date_configuration raises a Misconfiguration with
one line per colliding day in the order the days were first claimed during
enumeration (the mapping's key insertion order, not calendar order), each line
rendering the day as "Month DD" followed by the comma-joined names of all
contending events. -/
theorem C2_collision_report (events : List Event) (cols : List (Date × List Event))
    (h1 : (events.filter (fun e => e.fallback)).length = 1)
    (h2 : find_collisions (events.filter (fun e => !e.fallback)) = .ok cols)
    (h3 : cols ≠ []) :
    check_date_configuration events = .error (.misconfiguration
      ("Event collision detected:\n" ++
        String.intercalate "\n" (cols.map (fun p =>
          formatMonthDay p.1 ++ ": " ++
            String.intercalate ", " (p.2.map (fun e => e.name)))))) := by
  have hemp : cols.isEmpty = false := by
    cases cols with
    | nil => exact absurd rfl h3
    | cons a l => rfl
  rw [check_one_fallback events h1, h2]
  show (if cols.isEmpty = true then (Except.ok () : Except VError Unit)
      else Except.error (VError.misconfiguration ("Event collision detected:\n" ++
        String.intercalate "\n" (cols.map (fun p =>
          formatMonthDay p.1 ++ ": " ++
            String.intercalate ", " (p.2.map (fun e => e.name))))))) = _
  rw [hemp]
  rfl

set_option maxHeartbeats 1600000 in
/-- C2 counterexample: two identical December 30 – January 2 events (plus one
fallback event) produce a report whose days appear as December 30, December 31,
January 1, January 2 — the insertion order of the collision mapping — which is
not sorted by calendar order (month then day), contradicting the claim that
the report lines are ordered by calendar order. -/
theorem C2_counterexample :
    find_collisions [evW1, evW2] = .ok
      [(⟨12, 30⟩, [evW1, evW2]), (⟨12, 31⟩, [evW1, evW2]),
        (⟨1, 1⟩, [evW1, evW2]), (⟨1, 2⟩, [evW1, evW2])] ∧
    ¬ List.Chain' calendarLE [⟨12, 30⟩, ⟨12, 31⟩, ⟨1, 1⟩, ⟨1, 2⟩] ∧
    check_date_configuration [evFallback, evW1, evW2] = .error (.misconfiguration
      "Event collision detected:\nDecember 30: W1, W2\nDecember 31: W1, W2\nJanuary 01: W1, W2\nJanuary 02: W1, W2") :=
  ⟨by rfl,
    by
      intro h
      rw [List.chain'_cons, List.chain'_cons, List.chain'_cons] at h
      exact absurd h.2.1 (by decide),
    by rfl⟩

/-- C7 counterexample: with the fallback flag set and both date attributes
present (a combination the claim says must fail), make_event succeeds and
silently ignores the dates, returning a dateless fallback event. -/
theorem C7_counterexample :
    make_event "x"
      (MetaAttrs.mk (some (.bool true)) (some (some ⟨1, 1⟩)) (some (some ⟨1, 2⟩))) "d" =
      .ok (Event.mk "x" true none none "d") := by
  rfl

/-- C7 (amended): the constructor fails with a Misconfiguration when a
non-fallback event is missing a date attribute or a date fails to parse, and
succeeds otherwise; when the fallback flag is set it succeeds with a dateless
fallback event, ignoring any date attributes that are present. -/
theorem C7_make_event (name : String) (attrs : MetaAttrs) (description : String)
    (hd1 : 0 < description.length) (hd2 : description.length ≤ 2048) :
    (attrs.fallback.getD (.bool false) = .bool true →
      make_event name attrs description = .ok (Event.mk name true none none description)) ∧
    (attrs.fallback.getD (.bool false) = .bool false →
      ((attrs.start_date = none ∨ attrs.end_date = none ∨
          attrs.start_date = some none ∨ attrs.end_date = some none) →
        ∃ m, make_event name attrs description = .error (.misconfiguration m)) ∧
      (∀ s en, attrs.start_date = some (some s) → attrs.end_date = some (some en) →
        make_event name attrs description =
          .ok (Event.mk name false (some s) (some en) description))) := by
  have hif1 : ¬(description.length = 0) := by omega
  have hif2 : ¬(2048 < description.length) := by omega
  unfold make_event
  rw [if_neg hif1, if_neg hif2]
  constructor
  · intro hfb
    rw [hfb]
  · intro hfb
    rw [hfb]
    constructor
    · intro hmiss
      rcases hmiss with h | h | h | h
      · rw [h]
        cases hed : attrs.end_date with
        | none => exact ⟨_, rfl⟩
        | some pe => exact ⟨_, rfl⟩
      · rw [h]
        cases hsd : attrs.start_date with
        | none => exact ⟨_, rfl⟩
        | some ps =>
          cases ps with
          | none => exact ⟨_, rfl⟩
          | some d => exact ⟨_, rfl⟩
      · rw [h]
        cases hed : attrs.end_date with
        | none => exact ⟨_, rfl⟩
        | some pe => exact ⟨_, rfl⟩
      · rw [h]
        cases hsd : attrs.start_date with
        | none => exact ⟨_, rfl⟩
        | some ps =>
          cases ps with
          | none => exact ⟨_, rfl⟩
          | some d => exact ⟨_, rfl⟩
    · intro s en hsd hed
      rw [hsd, hed]

/-- C7 witness: a valid non-fallback configuration with both dates present and
parsed constructs the expected event. -/
theorem C7_witness :
    0 < ("d").length ∧ ("d").length ≤ 2048 ∧
    make_event "n"
      (MetaAttrs.mk (some (.bool false)) (some (some ⟨1, 1⟩)) (some (some ⟨1, 2⟩))) "d" =
      .ok (Event.mk "n" false (some ⟨1, 1⟩) (some ⟨1, 2⟩) "d") :=
  ⟨by decide, by decide,
    ((C7_make_event "n"
      (MetaAttrs.mk (some (.bool false)) (some (some ⟨1, 1⟩)) (some (some ⟨1, 2⟩))) "d"
      (by decide) (by decide)).2 rfl).2 ⟨1, 1⟩ ⟨1, 2⟩ rfl rfl⟩

set_option maxHeartbeats 1600000 in
/-- C2 witness: one fallback event plus the overlapping events A and B produce
the collision report built from the mapping's entries in insertion order. -/
theorem C2_witness :
    (([evFallback, evA, evB].filter (fun e => e.fallback)).length = 1) ∧
    find_collisions ([evFallback, evA, evB].filter (fun e => !e.fallback)) = .ok
      [(⟨1, 5⟩, [evA, evB]), (⟨1, 6⟩, [evA, evB]), (⟨1, 7⟩, [evA, evB]),
        (⟨1, 8⟩, [evA, evB]), (⟨1, 9⟩, [evA, evB]), (⟨1, 10⟩, [evA, evB])] ∧
    check_date_configuration [evFallback, evA, evB] = .error (.misconfiguration
      ("Event collision detected:\n" ++
        String.intercalate "\n"
          (([(⟨1, 5⟩, [evA, evB]), (⟨1, 6⟩, [evA, evB]), (⟨1, 7⟩, [evA, evB]),
             (⟨1, 8⟩, [evA, evB]), (⟨1, 9⟩, [evA, evB]),
             (⟨1, 10⟩, [evA, evB])] : List (Date × List Event)).map (fun p =>
            formatMonthDay p.1 ++ ": " ++
              String.intercalate ", " (p.2.map (fun e => e.name)))))) :=
  ⟨by decide, by rfl,
    C2_collision_report [evFallback, evA, evB] _ (by decide) (by rfl)
      (List.cons_ne_nil _ _)⟩
